import Mathlib

/-!
# cityquiz: the guess pipeline of `quiz-svg.js`

A shallow embedding of the functions of `src/quiz-svg.js` that decide how a typed
guess is turned into a city and how the session totals move:
`normalize`, `findMatchingCity`, the `keydown` handler installed by
`setupInputListener`, `updateStats`, `updateDynamicStats` and `loadMapBounds`.

Conventions of the embedding.

* A JavaScript string is its sequence of code points (`String`, `List Char`). Every
  regular expression of the file is BMP-only and has no `u` flag, and no surrogate
  belongs to any of its classes, so working on code points instead of UTF-16 code
  units gives the same result.
* The built-ins `String.prototype.normalize("NFD")` and `toLowerCase` are tabulated
  for the Basic Latin and Latin-1 Supplement blocks (U+0000..U+00FF); code points
  above U+00FF are passed through unchanged by both tables.
* `population` is an optional natural number (absent, or a non-negative integer);
  sums are exact integers, as JavaScript numbers are below 2^53.
* `latitude`, `longitude` and the bounds are rationals: every finite double is one,
  and the code only compares them.
* Of the page, the model keeps the bracket lines written by `updateDynamicStats`
  (`dynamicStats`), whose counters one property is about. The other DOM writes of the
  handler (list entry, totals, extremes, marker) are left out: `guessedCities`,
  `totalPopulation` and `extreme` are assigned before any of them runs, so a failing DOM
  write does not undo an assignment.
-/

namespace CityQuiz

/-! ## Built-ins used by `normalize` -/

/-- Canonical decompositions of the Latin-1 Supplement letters:
`(code point, base letter, combining mark)`. -/
def nfdTable : List (Nat × Nat × Nat) :=
  [ (0xC0, 0x41, 0x300), (0xC1, 0x41, 0x301), (0xC2, 0x41, 0x302), (0xC3, 0x41, 0x303),
    (0xC4, 0x41, 0x308), (0xC5, 0x41, 0x30A), (0xC7, 0x43, 0x327), (0xC8, 0x45, 0x300),
    (0xC9, 0x45, 0x301), (0xCA, 0x45, 0x302), (0xCB, 0x45, 0x308), (0xCC, 0x49, 0x300),
    (0xCD, 0x49, 0x301), (0xCE, 0x49, 0x302), (0xCF, 0x49, 0x308), (0xD1, 0x4E, 0x303),
    (0xD2, 0x4F, 0x300), (0xD3, 0x4F, 0x301), (0xD4, 0x4F, 0x302), (0xD5, 0x4F, 0x303),
    (0xD6, 0x4F, 0x308), (0xD9, 0x55, 0x300), (0xDA, 0x55, 0x301), (0xDB, 0x55, 0x302),
    (0xDC, 0x55, 0x308), (0xDD, 0x59, 0x301), (0xE0, 0x61, 0x300), (0xE1, 0x61, 0x301),
    (0xE2, 0x61, 0x302), (0xE3, 0x61, 0x303), (0xE4, 0x61, 0x308), (0xE5, 0x61, 0x30A),
    (0xE7, 0x63, 0x327), (0xE8, 0x65, 0x300), (0xE9, 0x65, 0x301), (0xEA, 0x65, 0x302),
    (0xEB, 0x65, 0x308), (0xEC, 0x69, 0x300), (0xED, 0x69, 0x301), (0xEE, 0x69, 0x302),
    (0xEF, 0x69, 0x308), (0xF1, 0x6E, 0x303), (0xF2, 0x6F, 0x300), (0xF3, 0x6F, 0x301),
    (0xF4, 0x6F, 0x302), (0xF5, 0x6F, 0x303), (0xF6, 0x6F, 0x308), (0xF9, 0x75, 0x300),
    (0xFA, 0x75, 0x301), (0xFB, 0x75, 0x302), (0xFC, 0x75, 0x308), (0xFD, 0x79, 0x301),
    (0xFF, 0x79, 0x308) ]

/-- Canonical decomposition of one code point, complete for U+0000..U+00FF. A combining
mark U+0300..U+036F is returned as it is: the few that the built-in decomposes become marks
of the same range, all deleted by the next step. A precomposed character above U+00FF is
returned as it is, where the built-in would decompose it. -/
def nfdChar (c : Char) : List Char :=
  match nfdTable.lookup c.toNat with
  | some (base, mark) => [Char.ofNat base, Char.ofNat mark]
  | none => [c]

/-- The call `.normalize("NFD")`. -/
def nfd (s : List Char) : List Char :=
  s.flatMap nfdChar

/-- The class of combining diacritical marks, U+0300..U+036F. -/
def isCombiningMark (c : Char) : Bool :=
  decide (0x300 ≤ c.toNat) && decide (c.toNat ≤ 0x36F)

/-- The call `.replace(/[U+0300-U+036F]/g, "")`: every combining mark is deleted. -/
def stripMarks (s : List Char) : List Char :=
  s.filter (fun c => !isCombiningMark c)

/-- A word character of a regular expression without the `u` and `i` flags:
`[A-Za-z0-9_]`. -/
def isWordChar (c : Char) : Bool :=
  (decide (0x41 ≤ c.toNat) && decide (c.toNat ≤ 0x5A)) ||
  (decide (0x61 ≤ c.toNat) && decide (c.toNat ≤ 0x7A)) ||
  (decide (0x30 ≤ c.toNat) && decide (c.toNat ≤ 0x39)) ||
  decide (c.toNat = 0x5F)

/-- The letters of the pattern `saint`. -/
def saintWord : List Char := ['s', 'a', 'i', 'n', 't']

/-- Whether `/\bsaint\b/` matches at the head of `s`, the character before it being a
word character or not (`prevWord`): `\b` holds in front of the `s` when the previous
character is not a word character, and behind the `t` when the next one is not. -/
def saintAt (prevWord : Bool) (s : List Char) : Bool :=
  !prevWord && saintWord.isPrefixOf s &&
    !(match s.drop 5 with
      | [] => false
      | c :: _ => isWordChar c)

/-- The left-to-right scan of `.replace(/\bsaint\b/g, "st")`. `skip` counts the
characters of a match that are still to be consumed. -/
def replaceSaintGo : Bool → Nat → List Char → List Char
  | _, _, [] => []
  | _, skip + 1, _ :: rest => replaceSaintGo true skip rest
  | prevWord, 0, c :: rest =>
    if saintAt prevWord (c :: rest) then
      's' :: 't' :: replaceSaintGo true 4 rest
    else
      c :: replaceSaintGo (isWordChar c) 0 rest

/-- The call `.replace(/\bsaint\b/g, "st")`. -/
def replaceSaint (s : List Char) : List Char :=
  replaceSaintGo false 0 s

/-- The character class of the third `replace`: period, hyphen, apostrophe. -/
def isPunct (c : Char) : Bool :=
  decide (c.toNat = 0x2E) || decide (c.toNat = 0x2D) || decide (c.toNat = 0x27)

/-- The third `replace` of `normalize`: every period, hyphen and apostrophe is deleted. -/
def stripPunct (s : List Char) : List Char :=
  s.filter (fun c => !isPunct c)

/-- Lower-case mapping of one code point, complete for U+0000..U+00FF (A-Z, and the
Latin-1 capitals but U+00D7); a capital above U+00FF is returned as it is, where the
built-in would lower-case it. -/
def lowerChar (c : Char) : Char :=
  if (0x41 ≤ c.toNat ∧ c.toNat ≤ 0x5A) ∨
      (0xC0 ≤ c.toNat ∧ c.toNat ≤ 0xDE ∧ c.toNat ≠ 0xD7) then
    Char.ofNat (c.toNat + 32)
  else c

/-- The call `.toLowerCase()`. -/
def toLowerCase (s : List Char) : List Char :=
  s.map lowerChar

/-- ECMAScript WhiteSpace and LineTerminator code points, the ones `trim` removes. -/
def isJsSpace (c : Char) : Bool :=
  decide (c.toNat ∈ [0x9, 0xA, 0xB, 0xC, 0xD, 0x20, 0xA0, 0x1680, 0x2028, 0x2029,
    0x202F, 0x205F, 0x3000, 0xFEFF]) ||
  (decide (0x2000 ≤ c.toNat) && decide (c.toNat ≤ 0x200A))

/-- The call `.trim()`. -/
def trim (s : List Char) : List Char :=
  ((s.dropWhile isJsSpace).reverse.dropWhile isJsSpace).reverse

/-- The pipeline of `normalize` on code points, in the order of the source:
NFD, combining marks, `saint`, punctuation, lower case, trim. -/
def normalizeChars (s : List Char) : List Char :=
  trim (toLowerCase (stripPunct (replaceSaint (stripMarks (nfd s)))))

/-- The function `normalize(str)`. -/
def normalize (str : String) : String :=
  String.mk (normalizeChars str.data)


/-! ## Data model -/

/-- One entry of `data/cities/<mode>.json`, with the fields the code reads. -/
structure CityRecord where
  name : String
  altNames : Option (List String)
  state : Option String
  country : String
  latitude : ℚ
  longitude : ℚ
  population : Option Nat
  nationalCapital : Bool
  stateCapital : Bool
deriving DecidableEq

/-- The variable `extreme`: `null` is `none`. -/
structure Extreme where
  north : Option CityRecord
  south : Option CityRecord
deriving DecidableEq

/-- One entry of the constant `populationBrackets`. -/
structure Bracket where
  label : String
  key : String
  threshold : Nat
deriving DecidableEq

/-- One line `<strong id=key>shown</strong> of total cities over label` of the list
`dynamicStatsList`. -/
structure StatLine where
  key : String
  shown : Nat
  total : Nat
deriving DecidableEq

/-- The mutable variables of a quiz session: `guessedCities`, `totalPopulation`,
`extreme`, and the bracket lines of the page. -/
structure Session where
  guessedCities : List String
  totalPopulation : Nat
  extreme : Extreme
  dynamicStats : List StatLine
deriving DecidableEq

/-! ## Matcher -/

/-- The expression `c.population || 0`. -/
def populationOrZero (c : CityRecord) : Nat :=
  c.population.getD 0

/-- The filter predicate of `findMatchingCity`:
`normalize(c.name) === key || (c.altNames || []).some(n => normalize(n) === key)`. -/
def isMatch (key : String) (c : CityRecord) : Bool :=
  decide (normalize c.name = key) ||
    (c.altNames.getD []).any (fun n => decide (normalize n = key))

/-- The comparator `(a, b) => (b.population || 0) - (a.population || 0)`. -/
def byPopulationDesc (a b : CityRecord) : Int :=
  (populationOrZero b : Int) - (populationOrZero a : Int)

/-- The call `Array.prototype.sort(cmp)`: a stable sort (ECMAScript 2019), `a` staying in
front of `b` when `cmp(a, b) <= 0`. For a consistent comparator the result of a stable
sort is unique; it is computed here by insertion. -/
def sortWith {α : Type} (cmp : α → α → Int) (l : List α) : List α :=
  l.insertionSort (fun a b => cmp a b ≤ 0)

/-- The function `findMatchingCity(guess, cities)`; `undefined` is `none`. -/
def findMatchingCity (guess : String) (cities : List CityRecord) : Option CityRecord :=
  let normalizedGuess := normalize guess
  let matched := cities.filter (isMatch normalizedGuess)
  (sortWith byPopulationDesc matched).head?

/-- The candidates of the specification: the records, in dataset order, whose normalized
name or one of whose normalized alternate names equals the key of the guess. -/
def candidatesSpec (guess : String) (cities : List CityRecord) : List CityRecord :=
  cities.filter (fun c => decide (normalize c.name = normalize guess ∨
    ∃ n ∈ c.altNames.getD [], normalize n = normalize guess))

/-- The largest population among `cs`, an absent population counting as 0. -/
def largestPopulation (cs : List CityRecord) : Nat :=
  (cs.map populationOrZero).foldr max 0

/-- The reference of the specification for the matcher: no candidate gives `none`; otherwise
the first candidate, in dataset order, whose population is the largest one. -/
def findMatchingCitySpec (guess : String) (cities : List CityRecord) : Option CityRecord :=
  match candidatesSpec guess cities with
  | [] => none
  | c :: cs => (c :: cs).find? (fun d => decide (populationOrZero d = largestPopulation (c :: cs)))

/-! ## Statistics -/

/-- The function `updateStats(city)`, on the variable `extreme`. -/
def updateStats (extreme : Extreme) (city : CityRecord) : Extreme :=
  let north :=
    match extreme.north with
    | none => some city
    | some n => if city.latitude > n.latitude then some city else some n
  let south :=
    match extreme.south with
    | none => some city
    | some s => if city.latitude < s.latitude then some city else some s
  { north := north, south := south }

/-- The constant `populationBrackets` of `updateDynamicStats`. -/
def populationBrackets : List Bracket :=
  [ { label := "5,000,000", key := "over5M", threshold := 5000000 },
    { label := "1,000,000", key := "over1M", threshold := 1000000 },
    { label := "500,000", key := "over500K", threshold := 500000 },
    { label := "100,000", key := "over100K", threshold := 100000 },
    { label := "50,000", key := "over50K", threshold := 50000 },
    { label := "10,000", key := "over10K", threshold := 10000 } ]

/-- The test `c.population >= threshold`; an absent population compares false. -/
def populationAtLeast (threshold : Nat) (c : CityRecord) : Bool :=
  match c.population with
  | some p => decide (p ≥ threshold)
  | none => false

/-- The number `cities.filter(c => c.population >= bracket.threshold).length`. -/
def bracketTotal (cities : List CityRecord) (threshold : Nat) : Nat :=
  (cities.filter (populationAtLeast threshold)).length

/-- The bracket lines written by `updateDynamicStats(cities)`: one line per bracket with a
positive total, its counter showing 0. -/
def updateDynamicStats (cities : List CityRecord) : List StatLine :=
  populationBrackets.filterMap (fun bracket =>
    let count := bracketTotal cities bracket.threshold
    if count > 0 then some { key := bracket.key, shown := 0, total := count } else none)

/-- The number shown by the counter element with id `key`, 0 when the page has none. -/
def bracketCounter (lines : List StatLine) (key : String) : Nat :=
  match lines.find? (fun l => decide (l.key = key)) with
  | some l => l.shown
  | none => 0

/-! ## The Enter handler -/

/-- The four ways through the `keydown` handler. -/
inductive Outcome where
  | blank
  | notFound
  | alreadyGuessed
  | accepted (city : CityRecord)
deriving DecidableEq

/-- The template literal with name, state and country separated by `|`; a missing `state`
prints as `undefined`. -/
def cityKey (c : CityRecord) : String :=
  c.name ++ "|" ++ c.state.getD "undefined" ++ "|" ++ c.country

/-- The `keydown` handler of `setupInputListener` for the key Enter, `guess` being the
content of the input field. -/
def onEnter (cities : List CityRecord) (s : Session) (guess : String) : Session × Outcome :=
  if trim guess.data = [] then (s, Outcome.blank)
  else
    match findMatchingCity guess cities with
    | none => (s, Outcome.notFound)
    | some city =>
      if cityKey city ∈ s.guessedCities then (s, Outcome.alreadyGuessed)
      else
        ({ s with
            guessedCities := s.guessedCities ++ [cityKey city]
            totalPopulation := s.totalPopulation + populationOrZero city
            extreme := updateStats s.extreme city },
          Outcome.accepted city)

/-- The session when `setupInputListener` runs: the initial values of the variables, and
the bracket lines `loadCityData` has rendered. -/
def initialSession (cities : List CityRecord) : Session :=
  { guessedCities := []
    totalPopulation := 0
    extreme := { north := none, south := none }
    dynamicStats := updateDynamicStats cities }

/-- The session after the submissions `guesses`, oldest first. -/
def run (cities : List CityRecord) (s : Session) : List String → Session
  | [] => s
  | g :: gs => run cities (onEnter cities s g).1 gs

/-- The cities accepted by the submissions `guesses`, oldest first. -/
def acceptedCities (cities : List CityRecord) (s : Session) : List String → List CityRecord
  | [] => []
  | g :: gs =>
    match (onEnter cities s g).2 with
    | Outcome.accepted city => city :: acceptedCities cities (onEnter cities s g).1 gs
    | _ => acceptedCities cities (onEnter cities s g).1 gs

/-- The variable `extreme` after `updateStats` has run once per city of `cs`, in order. -/
def updateStatsAll (extreme : Extreme) (cs : List CityRecord) : Extreme :=
  cs.foldl updateStats extreme

/-- The north half of `updateStats`: the first `if` of the function. -/
def northStep (north : Option CityRecord) (city : CityRecord) : Option CityRecord :=
  match north with
  | none => some city
  | some n => if city.latitude > n.latitude then some city else some n

/-- The south half of `updateStats`: the second `if` of the function. -/
def southStep (south : Option CityRecord) (city : CityRecord) : Option CityRecord :=
  match south with
  | none => some city
  | some s => if city.latitude < s.latitude then some city else some s

/-- The latitudes of `extreme.north` and `extreme.south`. -/
def extremeLatitudes (e : Extreme) : Option ℚ × Option ℚ :=
  (e.north.map (fun c => c.latitude), e.south.map (fun c => c.latitude))

/-- The first city of `cs` whose latitude no city of `cs` exceeds. -/
def firstNorthmost (cs : List CityRecord) : Option CityRecord :=
  cs.find? (fun c => decide (∀ d ∈ cs, d.latitude ≤ c.latitude))

/-- The first city of `cs` whose latitude no city of `cs` is below. -/
def firstSouthmost (cs : List CityRecord) : Option CityRecord :=
  cs.find? (fun c => decide (∀ d ∈ cs, c.latitude ≤ d.latitude))

/-- The first, second and fifth steps of `normalize` alone: decomposition, removal of the
combining marks, lower case. -/
def foldKey (s : String) : List Char :=
  toLowerCase (stripMarks (nfd s.data))

/-! ## Map bounds -/

/-- A bounds object as the code holds it: its property names with their numbers. -/
abbrev BoundsRecord := List (String × ℚ)

/-- The initial value of the variable `bounds`. -/
def initialBounds : BoundsRecord :=
  [("minLat", -90), ("maxLat", 90), ("minLon", -180), ("maxLon", 180)]

/-- The object literal assigned to `bounds` in the `else` branch and in the `catch` block
of `loadMapBounds` (the two literals are the same text). -/
def fallbackBounds : BoundsRecord :=
  [("latMin", -90), ("latMax", 90), ("lngMin", -180), ("lngMax", 180)]

/-- The read `bounds[field]`; `undefined` is `none`. -/
def boundsField (b : BoundsRecord) (field : String) : Option ℚ :=
  b.lookup field

/-- The function `loadMapBounds()`, as the value it leaves in `bounds`. `fetched` is the
parsed `data/map_bounds.json` (its own keys, each once), or `none` when the response is not
ok, the fetch rejects or the body does not parse: every path into the `catch` block. The
test `mode in allBounds` is the lookup of an own key: a `mode` that names a member
inherited from `Object.prototype` (`constructor`, `toString`) is outside this model. -/
def loadMapBounds (mode : String) (fetched : Option (List (String × BoundsRecord))) :
    BoundsRecord :=
  match fetched with
  | some allBounds =>
    match allBounds.lookup mode with
    | some entry => entry
    | none => fallbackBounds
  | none => fallbackBounds

/-- The rectangle of the specification. -/
structure Bounds where
  minLat : ℚ
  maxLat : ℚ
  minLon : ℚ
  maxLon : ℚ
deriving DecidableEq

/-- Modelled from the spec: `latLonToSVGCoords`, which `markCityOnSVG` calls and the source
file does not define. Longitude goes linearly from `[minLon, maxLon]` to `[0, width]`,
latitude from `[maxLat, minLat]` to `[0, height]`; degenerate bounds give no point. The
arithmetic is exact. -/
def latLonToSVGCoords (bounds : Bounds) (lat lon width height : ℚ) : Option (ℚ × ℚ) :=
  if bounds.minLon = bounds.maxLon ∨ bounds.minLat = bounds.maxLat then none
  else
    some ((lon - bounds.minLon) / (bounds.maxLon - bounds.minLon) * width,
      (bounds.maxLat - lat) / (bounds.maxLat - bounds.minLat) * height)

/-! ## Sample data -/

/-- A city with the given name, state, latitude and population. -/
def sampleCity (name : String) (state : Option String) (latitude : ℚ)
    (population : Option Nat) : CityRecord :=
  { name := name, altNames := none, state := state, country := "Testland",
    latitude := latitude, longitude := 0, population := population,
    nationalCapital := false, stateCapital := false }

/-- Two cities named Springfield, of 30,000 and 120,000 inhabitants. -/
def springfieldSmall : CityRecord := sampleCity "Springfield" (some "Vermont") 43 (some 30000)

/-- The larger Springfield. -/
def springfieldLarge : CityRecord := sampleCity "Springfield" (some "Illinois") 40 (some 120000)

/-- Four cities at latitudes 42, 10, -30 and -5. -/
def latitudeCities : List CityRecord :=
  [ sampleCity "Rome" none 42 none, sampleCity "Caracas" none 10 none,
    sampleCity "Durban" none (-30) none, sampleCity "Recife" none (-5) none ]

/-- Three cities of populations 500,000, 1,200,000 and 0. -/
def populationCities : List CityRecord :=
  [ sampleCity "Lisbon" none 39 (some 500000), sampleCity "Prague" none 50 (some 1200000),
    sampleCity "Atlantis" none 0 (some 0) ]

/-- A city of 6,000,000 inhabitants. -/
def bigCity : CityRecord := sampleCity "Tokyo" none 36 (some 6000000)

/-- A dataset entry whose name is a single period. -/
def dotCity : CityRecord := sampleCity "." none 0 (some 7)

/-- The city Saint Louis, spelled as datasets spell it. -/
def saintLouis : CityRecord := sampleCity "Saint Louis" (some "Missouri") 39 (some 300000)

/-- The city Paris. -/
def paris : CityRecord := sampleCity "Paris" none 49 (some 2100000)

/-- A table of bounds with the single mode `world`. -/
def sampleTable : List (String × BoundsRecord) :=
  [("world", [("minLat", -60), ("maxLat", 85), ("minLon", -180), ("maxLon", 180)])]

/-- The bounds of a map of western Europe. -/
def sampleBounds : Bounds :=
  { minLat := 35, maxLat := 60, minLon := -10, maxLon := 30 }

/-! ## Letters, for the statement on case and diacritics -/

/-- The accented letters of the Latin-1 Supplement block. -/
def accentedLetters : List Char :=
  "ÀÁÂÃÄÅÇÈÉÊËÌÍÎÏÑÒÓÔÕÖÙÚÛÜÝàáâãäåçèéêëìíîïñòóôõöùúûüýÿ".data

/-- The plain letter under each accent of `accentedLetters`, in the same order. -/
def plainLetters : List Char :=
  "AAAAAACEEEEIIIINOOOOOUUUUYaaaaaaceeeeiiiinooooouuuuyy".data

/-- The capital letters that carry no accent, below U+0100. -/
def capitalLetters : List Char :=
  "ABCDEFGHIJKLMNOPQRSTUVWXYZÆÐØÞ".data

/-- The small letter of each capital of `capitalLetters`, in the same order. -/
def smallLetters : List Char :=
  "abcdefghijklmnopqrstuvwxyzæðøþ".data

/-- The character `c` without its accent. -/
def withoutDiacritic (c : Char) : Char :=
  ((accentedLetters.zip plainLetters).lookup c).getD c

/-- The small form of the character `c`. -/
def smallLetter (c : Char) : Char :=
  ((capitalLetters.zip smallLetters).lookup c).getD c

/-- The letter a character stands for, whatever its case and its accent. -/
def letterOf (c : Char) : Char :=
  smallLetter (withoutDiacritic c)

/-- The letters of a spelling, whatever their case and their accents: accents written as
separate combining marks are left out. Two spellings differ only in letter case or in
diacritics when they have the same `lettersOf`. -/
def lettersOf (s : String) : List Char :=
  (s.data.filter (fun c => !isCombiningMark c)).map letterOf

/-- The characters on which `normalize` is tabulated in full: U+0000..U+00FF and the
combining marks U+0300..U+036F. -/
def inTabulatedRange (c : Char) : Bool :=
  decide (c.toNat ≤ 0xFF) || isCombiningMark c

/-! ## Lemmas on the normalizer -/

theorem toNat_ofNat_small (n : Nat) (h : n < 0xd800) : (Char.ofNat n).toNat = n := by
  have hv : n.isValidChar := Or.inl h
  unfold Char.ofNat
  rw [dif_pos hv]
  simp only [Char.ofNatAux, Char.toNat]
  have : n < UInt32.size := by simp [UInt32.size]; omega
  simp [UInt32.toNat, this]

theorem isPunct_lowerChar (c : Char) : isPunct (lowerChar c) = isPunct c := by
  unfold lowerChar
  split
  · rename_i h
    have hlt : c.toNat + 32 < 0xd800 := by omega
    have hto := toNat_ofNat_small (c.toNat + 32) hlt
    unfold isPunct
    rw [hto]
    have h1 : ¬ c.toNat + 32 = 0x2E := by omega
    have h2 : ¬ c.toNat + 32 = 0x2D := by omega
    have h3 : ¬ c.toNat + 32 = 0x27 := by omega
    have h4 : ¬ c.toNat = 0x2E := by omega
    have h5 : ¬ c.toNat = 0x2D := by omega
    have h6 : ¬ c.toNat = 0x27 := by omega
    simp [h1, h2, h3, h4, h5, h6]
  · rfl

theorem toLowerCase_stripPunct (s : List Char) :
    toLowerCase (stripPunct s) = stripPunct (toLowerCase s) := by
  unfold toLowerCase stripPunct
  rw [List.filter_map]
  congr 2
  funext c
  simp [isPunct_lowerChar]

theorem lowerChar_saintWord : saintWord.map lowerChar = saintWord := by decide

theorem replaceSaintGo_of_absent (prevWord : Bool) (s : List Char)
    (h : ¬ saintWord <:+: s) : replaceSaintGo prevWord 0 s = s := by
  induction s generalizing prevWord with
  | nil => rfl
  | cons c rest ih =>
    have hrest : ¬ saintWord <:+: rest := fun hi => h (List.infix_cons hi)
    have hat : saintAt prevWord (c :: rest) = false := by
      cases hs : saintAt prevWord (c :: rest) with
      | false => rfl
      | true =>
        exfalso
        unfold saintAt at hs
        simp only [Bool.and_eq_true] at hs
        exact h (List.isPrefixOf_iff_prefix.mp hs.1.2).isInfix
    rw [replaceSaintGo, hat]
    simp only [Bool.false_eq_true, if_false]
    rw [ih _ hrest]

theorem normalizeChars_of_no_saint (s : String) (h : ¬ saintWord <:+: foldKey s) :
    normalizeChars s.data = trim (stripPunct (foldKey s)) := by
  have h' : ¬ saintWord <:+: stripMarks (nfd s.data) := by
    intro hi
    apply h
    have := List.IsInfix.map lowerChar hi
    rw [lowerChar_saintWord] at this
    exact this
  unfold normalizeChars replaceSaint
  rw [replaceSaintGo_of_absent _ _ h', toLowerCase_stripPunct]
  rfl

set_option maxRecDepth 1000000 in
theorem latin1_letter : ∀ n < 256,
    stripMarks (nfdChar (Char.ofNat n)) = [withoutDiacritic (Char.ofNat n)] ∧
    isCombiningMark (Char.ofNat n) = false ∧
    lowerChar (withoutDiacritic (Char.ofNat n)) = letterOf (Char.ofNat n) := by
  decide

theorem nfdTable_keys : ∀ e ∈ nfdTable, e.1 < 256 := by decide

theorem lookup_mem {β : Type} (k : Nat) (v : β) (l : List (Nat × β))
    (h : l.lookup k = some v) : (k, v) ∈ l := by
  induction l with
  | nil => simp [List.lookup] at h
  | cons e l ih =>
    obtain ⟨k', v'⟩ := e
    by_cases hk : k = k'
    · subst hk
      simp [List.lookup] at h
      subst h
      simp
    · have hb : (k == k') = false := by simpa using hk
      simp only [List.lookup, hb] at h
      exact List.mem_cons_of_mem _ (ih h)

theorem nfdChar_of_mark (c : Char) (h : isCombiningMark c = true) : nfdChar c = [c] := by
  unfold nfdChar
  cases hl : nfdTable.lookup c.toNat with
  | none => rfl
  | some v =>
    exfalso
    have := nfdTable_keys _ (lookup_mem _ _ _ hl)
    unfold isCombiningMark at h
    simp only [Bool.and_eq_true, decide_eq_true_eq] at h
    simp only at this
    omega

theorem foldKey_cons_step (c : Char) (h : inTabulatedRange c = true) :
    toLowerCase (stripMarks (nfdChar c)) =
      ([c].filter (fun c => !isCombiningMark c)).map letterOf := by
  by_cases hm : isCombiningMark c = true
  · rw [nfdChar_of_mark c hm]
    simp [stripMarks, toLowerCase, hm]
  · have hle : c.toNat ≤ 0xFF := by
      unfold inTabulatedRange at h
      simp only [Bool.or_eq_true, decide_eq_true_eq] at h
      rcases h with h | h
      · exact h
      · exact absurd h hm
    obtain ⟨h1, h2, h3⟩ := latin1_letter c.toNat (by omega)
    rw [Char.ofNat_toNat] at h1 h2 h3
    rw [h1]
    simp [toLowerCase, h2, h3]

theorem foldKey_eq_lettersOf (s : String) (h : ∀ c ∈ s.data, inTabulatedRange c = true) :
    foldKey s = lettersOf s := by
  unfold foldKey lettersOf
  generalize s.data = l at h
  induction l with
  | nil => rfl
  | cons c l ih =>
    have hc := foldKey_cons_step c (h c (by simp))
    have hl := ih (fun d hd => h d (List.mem_cons_of_mem _ hd))
    have e1 : nfd (c :: l) = nfdChar c ++ nfd l := by simp [nfd]
    have e2 : (c :: l).filter (fun c => !isCombiningMark c) =
        [c].filter (fun c => !isCombiningMark c) ++ l.filter (fun c => !isCombiningMark c) := by
      rw [← List.filter_append]; rfl
    rw [e1, e2, List.map_append, ← hc, ← hl]
    simp [stripMarks, toLowerCase]

/-! ## Lemmas on the matcher -/

theorem isMatch_eq (guess : String) (c : CityRecord) :
    isMatch (normalize guess) c = decide (normalize c.name = normalize guess ∨
      ∃ n ∈ c.altNames.getD [], normalize n = normalize guess) := by
  unfold isMatch
  rw [Bool.eq_iff_iff]
  simp [List.any_eq_true]

theorem candidatesSpec_eq (guess : String) (cities : List CityRecord) :
    candidatesSpec guess cities = cities.filter (isMatch (normalize guess)) := by
  unfold candidatesSpec
  congr 1
  funext c
  exact (isMatch_eq guess c).symm

theorem largestPopulation_cons (a : CityRecord) (l : List CityRecord) :
    largestPopulation (a :: l) = max (populationOrZero a) (largestPopulation l) := rfl

theorem head?_orderedInsert {α : Type} (r : α → α → Prop) [DecidableRel r] (a : α)
    (l : List α) :
    (l.orderedInsert r a).head? =
      match l.head? with
      | none => some a
      | some b => if r a b then some a else some b := by
  cases l with
  | nil => rfl
  | cons b t =>
    simp only [List.orderedInsert, List.head?_cons]
    split <;> rfl

theorem head?_sortWith_byPopulationDesc (l : List CityRecord) :
    (sortWith byPopulationDesc l).head? =
      l.find? (fun d => decide (populationOrZero d = largestPopulation l)) := by
  induction l with
  | nil => rfl
  | cons a l ih =>
    unfold sortWith at ih ⊢
    rw [List.insertionSort, head?_orderedInsert, ih, largestPopulation_cons]
    cases hf : l.find? (fun d => decide (populationOrZero d = largestPopulation l)) with
    | none =>
      have hl : l = [] := by
        cases l with
        | nil => rfl
        | cons b t =>
          exfalso
          rw [← ih] at hf
          have := List.length_insertionSort (fun a b => byPopulationDesc a b ≤ 0) (b :: t)
          cases hs : List.insertionSort (fun a b => byPopulationDesc a b ≤ 0) (b :: t) with
          | nil => rw [hs] at this; simp at this
          | cons x y => rw [hs] at hf; simp at hf
      subst hl
      simp [largestPopulation]
    | some b =>
      have hb : populationOrZero b = largestPopulation l := by
        have := List.find?_some hf
        simpa using this
      simp only [List.find?_cons]
      by_cases hab : byPopulationDesc a b ≤ 0
      · have hle : populationOrZero b ≤ populationOrZero a := by
          unfold byPopulationDesc at hab; omega
        rw [if_pos hab]
        have : populationOrZero a = max (populationOrZero a) (largestPopulation l) := by
          rw [← hb]; omega
        simp [← this]
      · have hlt : populationOrZero a < populationOrZero b := by
          unfold byPopulationDesc at hab; omega
        rw [if_neg hab]
        have hmax : max (populationOrZero a) (largestPopulation l) = largestPopulation l := by
          rw [← hb]; omega
        have hne : ¬ populationOrZero a = largestPopulation l := by
          rw [← hb]; omega
        rw [hmax]
        simp [hne, hf]

/-! ## Lemmas on the extremes -/

theorem updateStatsAll_eq (e : Extreme) (cs : List CityRecord) :
    updateStatsAll e cs =
      { north := cs.foldl northStep e.north, south := cs.foldl southStep e.south } := by
  unfold updateStatsAll
  induction cs generalizing e with
  | nil => rfl
  | cons c cs ih =>
    simp only [List.foldl_cons]
    rw [ih]
    rfl

theorem foldl_northStep_some (n : CityRecord) (cs : List CityRecord) :
    cs.foldl northStep (some n) =
      (n :: cs).find? (fun c => decide (∀ d ∈ n :: cs, d.latitude ≤ c.latitude)) := by
  induction cs generalizing n with
  | nil => simp
  | cons c cs ih =>
    simp only [List.foldl_cons, northStep]
    by_cases hc : c.latitude > n.latitude
    · rw [if_pos hc, ih]
      have hn : ¬ ∀ d ∈ n :: c :: cs, d.latitude ≤ n.latitude := by
        intro h
        have := h c (by simp)
        exact absurd hc (not_lt.mpr this)
      have hskip : (n :: c :: cs).find?
            (fun x => decide (∀ d ∈ n :: c :: cs, d.latitude ≤ x.latitude)) =
          (c :: cs).find? (fun x => decide (∀ d ∈ n :: c :: cs, d.latitude ≤ x.latitude)) :=
        List.find?_cons_of_neg _ (by simp only [decide_eq_true_eq]; exact hn)
      rw [hskip]
      congr 1
      funext x
      rw [decide_eq_decide]
      constructor
      · intro h d hd
        rcases List.mem_cons.mp hd with rfl | hd
        · exact le_trans (le_of_lt hc) (h c (by simp))
        · exact h d hd
      · intro h d hd
        exact h d (List.mem_cons_of_mem _ hd)
    · rw [if_neg hc, ih]
      have hcn : c.latitude ≤ n.latitude := not_lt.mp hc
      have hP : (fun x : CityRecord => decide (∀ d ∈ n :: cs, d.latitude ≤ x.latitude)) =
          (fun x : CityRecord => decide (∀ d ∈ n :: c :: cs, d.latitude ≤ x.latitude)) := by
        funext x
        rw [decide_eq_decide]
        constructor
        · intro h d hd
          rcases List.mem_cons.mp hd with rfl | hd
          · exact h _ (by simp)
          · rcases List.mem_cons.mp hd with rfl | hd
            · exact le_trans hcn (h n (by simp))
            · exact h d (List.mem_cons_of_mem _ hd)
        · intro h d hd
          rcases List.mem_cons.mp hd with rfl | hd
          · exact h _ (by simp)
          · exact h d (by simp [hd])
      rw [hP]
      by_cases hn : ∀ d ∈ n :: c :: cs, d.latitude ≤ n.latitude
      · rw [List.find?_cons_of_pos _ (by simp only [decide_eq_true_eq]; exact hn),
          List.find?_cons_of_pos _ (by simp only [decide_eq_true_eq]; exact hn)]
      · rw [List.find?_cons_of_neg _ (by simp only [decide_eq_true_eq]; exact hn),
          List.find?_cons_of_neg _ (by simp only [decide_eq_true_eq]; exact hn)]
        have hcc : ¬ ∀ d ∈ n :: c :: cs, d.latitude ≤ c.latitude := by
          intro h
          exact hn (fun d hd => le_trans (h d hd) hcn)
        rw [List.find?_cons_of_neg _ (by simp only [decide_eq_true_eq]; exact hcc)]

theorem foldl_southStep_some (n : CityRecord) (cs : List CityRecord) :
    cs.foldl southStep (some n) =
      (n :: cs).find? (fun c => decide (∀ d ∈ n :: cs, c.latitude ≤ d.latitude)) := by
  induction cs generalizing n with
  | nil => simp
  | cons c cs ih =>
    simp only [List.foldl_cons, southStep]
    by_cases hc : c.latitude < n.latitude
    · rw [if_pos hc, ih]
      have hn : ¬ ∀ d ∈ n :: c :: cs, n.latitude ≤ d.latitude := by
        intro h
        have := h c (by simp)
        exact absurd hc (not_lt.mpr this)
      have hskip : (n :: c :: cs).find?
            (fun x => decide (∀ d ∈ n :: c :: cs, x.latitude ≤ d.latitude)) =
          (c :: cs).find? (fun x => decide (∀ d ∈ n :: c :: cs, x.latitude ≤ d.latitude)) :=
        List.find?_cons_of_neg _ (by simp only [decide_eq_true_eq]; exact hn)
      rw [hskip]
      congr 1
      funext x
      rw [decide_eq_decide]
      constructor
      · intro h d hd
        rcases List.mem_cons.mp hd with rfl | hd
        · exact le_trans (h c (by simp)) (le_of_lt hc)
        · exact h d hd
      · intro h d hd
        exact h d (List.mem_cons_of_mem _ hd)
    · rw [if_neg hc, ih]
      have hcn : n.latitude ≤ c.latitude := not_lt.mp hc
      have hP : (fun x : CityRecord => decide (∀ d ∈ n :: cs, x.latitude ≤ d.latitude)) =
          (fun x : CityRecord => decide (∀ d ∈ n :: c :: cs, x.latitude ≤ d.latitude)) := by
        funext x
        rw [decide_eq_decide]
        constructor
        · intro h d hd
          rcases List.mem_cons.mp hd with rfl | hd
          · exact h _ (by simp)
          · rcases List.mem_cons.mp hd with rfl | hd
            · exact le_trans (h n (by simp)) hcn
            · exact h d (List.mem_cons_of_mem _ hd)
        · intro h d hd
          rcases List.mem_cons.mp hd with rfl | hd
          · exact h _ (by simp)
          · exact h d (by simp [hd])
      rw [hP]
      by_cases hn : ∀ d ∈ n :: c :: cs, n.latitude ≤ d.latitude
      · rw [List.find?_cons_of_pos _ (by simp only [decide_eq_true_eq]; exact hn),
          List.find?_cons_of_pos _ (by simp only [decide_eq_true_eq]; exact hn)]
      · rw [List.find?_cons_of_neg _ (by simp only [decide_eq_true_eq]; exact hn),
          List.find?_cons_of_neg _ (by simp only [decide_eq_true_eq]; exact hn)]
        have hcc : ¬ ∀ d ∈ n :: c :: cs, c.latitude ≤ d.latitude := by
          intro h
          exact hn (fun d hd => le_trans hcn (h d hd))
        rw [List.find?_cons_of_neg _ (by simp only [decide_eq_true_eq]; exact hcc)]

theorem updateStatsAll_initial (cs : List CityRecord) :
    updateStatsAll { north := none, south := none } cs =
      { north := firstNorthmost cs, south := firstSouthmost cs } := by
  rw [updateStatsAll_eq]
  cases cs with
  | nil => rfl
  | cons c cs =>
    simp only [List.foldl_cons, northStep, southStep]
    rw [foldl_northStep_some, foldl_southStep_some]
    rfl

theorem firstNorthmost_spec {cs : List CityRecord} {n : CityRecord}
    (h : firstNorthmost cs = some n) : n ∈ cs ∧ ∀ d ∈ cs, d.latitude ≤ n.latitude := by
  unfold firstNorthmost at h
  exact ⟨List.mem_of_find?_eq_some h, by simpa using List.find?_some h⟩

theorem firstSouthmost_spec {cs : List CityRecord} {s : CityRecord}
    (h : firstSouthmost cs = some s) : s ∈ cs ∧ ∀ d ∈ cs, s.latitude ≤ d.latitude := by
  unfold firstSouthmost at h
  exact ⟨List.mem_of_find?_eq_some h, by simpa using List.find?_some h⟩

theorem foldl_northStep_isSome (n : CityRecord) (cs : List CityRecord) :
    ∃ m, cs.foldl northStep (some n) = some m := by
  induction cs generalizing n with
  | nil => exact ⟨n, rfl⟩
  | cons c cs ih =>
    simp only [List.foldl_cons, northStep]
    split
    · exact ih c
    · exact ih n

theorem foldl_southStep_isSome (n : CityRecord) (cs : List CityRecord) :
    ∃ m, cs.foldl southStep (some n) = some m := by
  induction cs generalizing n with
  | nil => exact ⟨n, rfl⟩
  | cons c cs ih =>
    simp only [List.foldl_cons, southStep]
    split
    · exact ih c
    · exact ih n

theorem firstNorthmost_isSome {cs : List CityRecord} (h : cs ≠ []) :
    ∃ n, firstNorthmost cs = some n := by
  cases cs with
  | nil => exact absurd rfl h
  | cons c cs =>
    obtain ⟨m, hm⟩ := foldl_northStep_isSome c cs
    exact ⟨m, by rw [← hm, foldl_northStep_some]; rfl⟩

theorem firstSouthmost_isSome {cs : List CityRecord} (h : cs ≠ []) :
    ∃ n, firstSouthmost cs = some n := by
  cases cs with
  | nil => exact absurd rfl h
  | cons c cs =>
    obtain ⟨m, hm⟩ := foldl_southStep_isSome c cs
    exact ⟨m, by rw [← hm, foldl_southStep_some]; rfl⟩

/-! ## Lemmas on the handler -/

theorem findMatchingCity_congr {t t' : String} (h : normalize t' = normalize t)
    (cities : List CityRecord) : findMatchingCity t' cities = findMatchingCity t cities := by
  unfold findMatchingCity
  rw [h]

theorem onEnter_blank (cities : List CityRecord) (s : Session) (guess : String)
    (h : trim guess.data = []) : onEnter cities s guess = (s, Outcome.blank) := by
  unfold onEnter
  rw [if_pos h]

theorem onEnter_notFound (cities : List CityRecord) (s : Session) (guess : String)
    (h : trim guess.data ≠ []) (hm : findMatchingCity guess cities = none) :
    onEnter cities s guess = (s, Outcome.notFound) := by
  unfold onEnter
  rw [if_neg h, hm]

theorem onEnter_alreadyGuessed (cities : List CityRecord) (s : Session) (guess : String)
    (city : CityRecord) (h : trim guess.data ≠ [])
    (hm : findMatchingCity guess cities = some city) (hk : cityKey city ∈ s.guessedCities) :
    onEnter cities s guess = (s, Outcome.alreadyGuessed) := by
  unfold onEnter
  rw [if_neg h, hm]
  simp only []
  rw [if_pos hk]

theorem onEnter_accepted (cities : List CityRecord) (s : Session) (guess : String)
    (city : CityRecord) (h : trim guess.data ≠ [])
    (hm : findMatchingCity guess cities = some city) (hk : cityKey city ∉ s.guessedCities) :
    onEnter cities s guess =
      ({ s with
          guessedCities := s.guessedCities ++ [cityKey city]
          totalPopulation := s.totalPopulation + populationOrZero city
          extreme := updateStats s.extreme city },
        Outcome.accepted city) := by
  unfold onEnter
  rw [if_neg h, hm]
  simp only []
  rw [if_neg hk]

theorem onEnter_cases (cities : List CityRecord) (s : Session) (guess : String) :
    onEnter cities s guess = (s, Outcome.blank) ∨
    onEnter cities s guess = (s, Outcome.notFound) ∨
    onEnter cities s guess = (s, Outcome.alreadyGuessed) ∨
    ∃ city, findMatchingCity guess cities = some city ∧ cityKey city ∉ s.guessedCities ∧
      onEnter cities s guess =
        ({ s with
            guessedCities := s.guessedCities ++ [cityKey city]
            totalPopulation := s.totalPopulation + populationOrZero city
            extreme := updateStats s.extreme city },
          Outcome.accepted city) := by
  by_cases h : trim guess.data = []
  · exact Or.inl (onEnter_blank cities s guess h)
  · cases hm : findMatchingCity guess cities with
    | none => exact Or.inr (Or.inl (onEnter_notFound cities s guess h hm))
    | some city =>
      by_cases hk : cityKey city ∈ s.guessedCities
      · exact Or.inr (Or.inr (Or.inl (onEnter_alreadyGuessed cities s guess city h hm hk)))
      · exact Or.inr (Or.inr (Or.inr ⟨city, rfl, hk, onEnter_accepted cities s guess city h hm hk⟩))

theorem key_mem_after_onEnter (cities : List CityRecord) (s : Session) (guess : String)
    (city : CityRecord) (h : trim guess.data ≠ [])
    (hm : findMatchingCity guess cities = some city) :
    cityKey city ∈ (onEnter cities s guess).1.guessedCities := by
  by_cases hk : cityKey city ∈ s.guessedCities
  · rw [onEnter_alreadyGuessed cities s guess city h hm hk]
    exact hk
  · rw [onEnter_accepted cities s guess city h hm hk]
    simp

theorem run_totals (cities : List CityRecord) (s : Session) (guesses : List String) :
    (run cities s guesses).totalPopulation =
        s.totalPopulation + ((acceptedCities cities s guesses).map populationOrZero).sum ∧
      (run cities s guesses).guessedCities =
        s.guessedCities ++ (acceptedCities cities s guesses).map cityKey := by
  induction guesses generalizing s with
  | nil => simp [run, acceptedCities]
  | cons g gs ih =>
    simp only [run, acceptedCities]
    obtain ⟨h1, h2⟩ := ih (onEnter cities s g).1
    rw [h1, h2]
    rcases onEnter_cases cities s g with h | h | h | ⟨city, -, -, h⟩ <;>
      (rw [h]; simp [Nat.add_assoc])

theorem onEnter_total_le (cities : List CityRecord) (s : Session) (guess : String) :
    s.totalPopulation ≤ (onEnter cities s guess).1.totalPopulation := by
  rcases onEnter_cases cities s guess with h | h | h | ⟨city, -, -, h⟩ <;> simp [h]

theorem onEnter_same_text (cities : List CityRecord) (s : Session) (t : String) :
    (onEnter cities (onEnter cities s t).1 t).1 = (onEnter cities s t).1 := by
  by_cases h : trim t.data = []
  · simp [onEnter_blank _ _ _ h]
  · cases hm : findMatchingCity t cities with
    | none => simp [onEnter_notFound _ _ _ h hm]
    | some city =>
      rw [onEnter_alreadyGuessed cities _ t city h hm (key_mem_after_onEnter cities s t city h hm)]

/-! ## Properties of the specification -/

/-- C1, counterexample: on a dataset with an entry named `.`, the guess `-` passes the
blank guard and resolves to that entry; a single space has the same normalized key, and
submitted next it leaves at the blank guard: it does not take the already-guessed path. -/
theorem blank_variant_leaves_at_guard :
    trim "-".data ≠ [] ∧
    findMatchingCity "-" [dotCity] = some dotCity ∧
    normalize " " = normalize "-" ∧
    (onEnter [dotCity] (initialSession [dotCity]) "-").2 = Outcome.accepted dotCity ∧
    (onEnter [dotCity] (onEnter [dotCity] (initialSession [dotCity]) "-").1 " ").2 =
      Outcome.blank ∧
    (onEnter [dotCity] (onEnter [dotCity] (initialSession [dotCity]) "-").1 " ").2 ≠
      Outcome.alreadyGuessed := by
  decide

/-- C1, amended: a guess that the Enter handler resolves to a city (it passes the blank
guard and `findMatchingCity` returns a city), submitted again, takes the already-guessed
path. Every other text with the same normalized key takes the already-guessed path when it
is not blank and leaves at the blank guard when it is blank. In every case the session
after the second submission is the session after the first: `guessedCities`,
`totalPopulation` and `extreme` are unchanged. Submitting one text twice changes nothing the
second time for every text. The session `s` is arbitrary, reachable or not. -/
theorem onEnter_repeat_changes_nothing (cities : List CityRecord) (s : Session)
    (t t' : String) (city : CityRecord)
    (hguard : trim t.data ≠ []) (hcity : findMatchingCity t cities = some city)
    (hkey : normalize t' = normalize t) :
    onEnter cities (onEnter cities s t).1 t = ((onEnter cities s t).1, Outcome.alreadyGuessed) ∧
    (onEnter cities (onEnter cities s t).1 t').1 = (onEnter cities s t).1 ∧
    (trim t'.data ≠ [] →
      onEnter cities (onEnter cities s t).1 t' =
        ((onEnter cities s t).1, Outcome.alreadyGuessed)) ∧
    (trim t'.data = [] →
      onEnter cities (onEnter cities s t).1 t' = ((onEnter cities s t).1, Outcome.blank)) ∧
    (∀ u : String, (onEnter cities (onEnter cities s u).1 u).1 = (onEnter cities s u).1) := by
  have hmem := key_mem_after_onEnter cities s t city hguard hcity
  have hcity' : findMatchingCity t' cities = some city := by
    rw [findMatchingCity_congr hkey, hcity]
  refine ⟨onEnter_alreadyGuessed cities _ t city hguard hcity hmem, ?_, ?_,
    fun hb => onEnter_blank cities _ t' hb, fun u => onEnter_same_text cities s u⟩
  · by_cases hb : trim t'.data = []
    · rw [onEnter_blank cities _ t' hb]
    · rw [onEnter_alreadyGuessed cities _ t' city hb hcity' hmem]
  · intro hb
    exact onEnter_alreadyGuessed cities _ t' city hb hcity' hmem

/-- Witness of C1 amended: `São Paulo` typed as `Sao Paulo`, then as `SÃO PAULO`. -/
theorem onEnter_repeat_changes_nothing_witness :
    trim "Sao Paulo".data ≠ [] ∧
    findMatchingCity "Sao Paulo" [sampleCity "São Paulo" none (-23) (some 12000000)] =
      some (sampleCity "São Paulo" none (-23) (some 12000000)) ∧
    normalize "SÃO PAULO" = normalize "Sao Paulo" ∧
    trim "SÃO PAULO".data ≠ [] ∧
    onEnter [sampleCity "São Paulo" none (-23) (some 12000000)]
      (onEnter [sampleCity "São Paulo" none (-23) (some 12000000)]
        (initialSession [sampleCity "São Paulo" none (-23) (some 12000000)]) "Sao Paulo").1
      "SÃO PAULO" =
    ((onEnter [sampleCity "São Paulo" none (-23) (some 12000000)]
      (initialSession [sampleCity "São Paulo" none (-23) (some 12000000)]) "Sao Paulo").1,
      Outcome.alreadyGuessed) :=
  ⟨by decide, by decide, by decide, by decide,
    (onEnter_repeat_changes_nothing [sampleCity "São Paulo" none (-23) (some 12000000)]
      (initialSession [sampleCity "São Paulo" none (-23) (some 12000000)])
      "Sao Paulo" "SÃO PAULO" (sampleCity "São Paulo" none (-23) (some 12000000))
      (by decide) (by decide) (by decide)).2.2.1 (by decide)⟩

/-- C2: `findMatchingCity` returns what the reference returns: nothing when no record has
the key of the guess among its normalized names, otherwise the first record, in dataset
order, among the candidates of largest population (absent counting as 0). Of the two
Springfields it returns the one of 120,000, in either dataset order. -/
theorem findMatchingCity_eq_reference (guess : String) (cities : List CityRecord) :
    findMatchingCity guess cities = findMatchingCitySpec guess cities ∧
    findMatchingCity "springfield" [springfieldSmall, springfieldLarge] =
      some springfieldLarge ∧
    findMatchingCity "springfield" [springfieldLarge, springfieldSmall] =
      some springfieldLarge := by
  refine ⟨?_, by decide, by decide⟩
  unfold findMatchingCity findMatchingCitySpec
  simp only []
  rw [head?_sortWith_byPopulationDesc, candidatesSpec_eq]
  cases cities.filter (isMatch (normalize guess)) with
  | nil => rfl
  | cons c cs => rfl

/-- C3: after `updateStats` has run once per city of a non-empty sequence, from
`extreme = {north: null, south: null}`, `extreme.north` is the first city of the sequence
whose latitude is the maximum and `extreme.south` the first whose latitude is the minimum;
the two latitudes are the same for every permutation of the sequence, and they are 42 and
-30 when the latitudes are 10, -5, 42, -30 in any order. -/
theorem updateStats_extremes (cs : List CityRecord) (hne : cs ≠ []) :
    (∃ n s, updateStatsAll { north := none, south := none } cs =
        { north := some n, south := some s } ∧
      n ∈ cs ∧ (∀ d ∈ cs, d.latitude ≤ n.latitude) ∧
      s ∈ cs ∧ (∀ d ∈ cs, s.latitude ≤ d.latitude) ∧
      firstNorthmost cs = some n ∧ firstSouthmost cs = some s) ∧
    (∀ cs' : List CityRecord, cs'.Perm cs →
      extremeLatitudes (updateStatsAll { north := none, south := none } cs') =
        extremeLatitudes (updateStatsAll { north := none, south := none } cs)) ∧
    ((cs.map (fun c => c.latitude)).Perm [10, -5, 42, -30] →
      extremeLatitudes (updateStatsAll { north := none, south := none } cs) =
        (some 42, some (-30))) := by
  obtain ⟨n, hn⟩ := firstNorthmost_isSome hne
  obtain ⟨s, hs⟩ := firstSouthmost_isSome hne
  obtain ⟨hnmem, hnmax⟩ := firstNorthmost_spec hn
  obtain ⟨hsmem, hsmin⟩ := firstSouthmost_spec hs
  have hcs : updateStatsAll { north := none, south := none } cs =
      { north := some n, south := some s } := by
    rw [updateStatsAll_initial, hn, hs]
  refine ⟨⟨n, s, hcs, hnmem, hnmax, hsmem, hsmin, hn, hs⟩, ?_, ?_⟩
  · intro cs' hperm
    have hne' : cs' ≠ [] := by
      intro h
      subst h
      exact hne (List.Perm.eq_nil hperm.symm)
    obtain ⟨n', hn'⟩ := firstNorthmost_isSome hne'
    obtain ⟨s', hs'⟩ := firstSouthmost_isSome hne'
    obtain ⟨hnmem', hnmax'⟩ := firstNorthmost_spec hn'
    obtain ⟨hsmem', hsmin'⟩ := firstSouthmost_spec hs'
    rw [hcs, updateStatsAll_initial, hn', hs']
    have h1 : n'.latitude = n.latitude :=
      le_antisymm (hnmax n' (hperm.mem_iff.mp hnmem')) (hnmax' n (hperm.mem_iff.mpr hnmem))
    have h2 : s'.latitude = s.latitude :=
      le_antisymm (hsmin' s (hperm.mem_iff.mpr hsmem)) (hsmin s' (hperm.mem_iff.mp hsmem'))
    simp [extremeLatitudes, h1, h2]
  · intro hperm
    rw [hcs]
    have hin : ∀ c ∈ cs, c.latitude ∈ ([10, -5, 42, -30] : List ℚ) := fun c hc =>
      hperm.mem_iff.mp (List.mem_map_of_mem _ hc)
    have hex : ∀ q ∈ ([10, -5, 42, -30] : List ℚ), ∃ c ∈ cs, c.latitude = q := fun q hq => by
      have := hperm.mem_iff.mpr hq
      obtain ⟨c, hc, hq⟩ := List.mem_map.mp this
      exact ⟨c, hc, hq⟩
    obtain ⟨c42, hc42, h42⟩ := hex 42 (by simp)
    obtain ⟨c30, hc30, h30⟩ := hex (-30) (by simp)
    have hn42 : (42 : ℚ) ≤ n.latitude := h42 ▸ hnmax c42 hc42
    have hs30 : s.latitude ≤ (-30 : ℚ) := h30 ▸ hsmin c30 hc30
    have hnl := hin n hnmem
    have hsl := hin s hsmem
    simp only [List.mem_cons, List.mem_singleton, List.not_mem_nil, or_false] at hnl hsl
    have e1 : n.latitude = 42 := by
      rcases hnl with h | h | h | h <;> rw [h] at hn42 ⊢ <;> norm_num at hn42 ⊢
    have e2 : s.latitude = -30 := by
      rcases hsl with h | h | h | h <;> rw [h] at hs30 ⊢ <;> norm_num at hs30 ⊢
    simp [extremeLatitudes, e1, e2]

/-- Witness of C3: cities accepted at latitudes 42, 10, -30, -5. -/
theorem updateStats_extremes_witness :
    latitudeCities ≠ [] ∧
    (latitudeCities.map (fun c => c.latitude)).Perm [10, -5, 42, -30] ∧
    extremeLatitudes (updateStatsAll { north := none, south := none } latitudeCities) =
      (some 42, some (-30)) :=
  ⟨by decide, by decide,
    (updateStats_extremes latitudeCities (by decide)).2.2 (by decide)⟩

/-- C4: after every sequence of submissions from the initial state, `totalPopulation` is
the sum of `population || 0` over the cities accepted so far, `guessedCities` holds the key
of each accepted city once, in order of acceptance (one term of the sum per entry), and one
more submission never lowers `totalPopulation`. Accepting cities of populations 500,000,
1,200,000 and 0 gives 1,700,000. -/
theorem totalPopulation_eq_sum (cities : List CityRecord) (guesses : List String) :
    (run cities (initialSession cities) guesses).totalPopulation =
      ((acceptedCities cities (initialSession cities) guesses).map populationOrZero).sum ∧
    (run cities (initialSession cities) guesses).guessedCities =
      (acceptedCities cities (initialSession cities) guesses).map cityKey ∧
    (∀ guess : String,
      (run cities (initialSession cities) guesses).totalPopulation ≤
        (onEnter cities (run cities (initialSession cities) guesses) guess).1.totalPopulation) ∧
    (acceptedCities populationCities (initialSession populationCities)
        ["lisbon", "PRAGUE", "Atlantis"]).map populationOrZero = [500000, 1200000, 0] ∧
    (run populationCities (initialSession populationCities)
        ["lisbon", "PRAGUE", "Atlantis"]).totalPopulation = 1700000 := by
  obtain ⟨h1, h2⟩ := run_totals cities (initialSession cities) guesses
  refine ⟨?_, ?_, fun guess => onEnter_total_le cities _ guess, by decide, by decide⟩
  · rw [h1]; simp [initialSession]
  · rw [h2]; simp [initialSession]

/-- C5, the code at the failing input: a city of 6,000,000 inhabitants is accepted, it
reaches all six thresholds, `guessedCities` and `totalPopulation` move (the page counters
`cityCount` and `populationCovered` are rewritten from them), and the counter of every
bracket still shows the 0 that `updateDynamicStats` wrote: none is raised by one. -/
theorem bracket_counter_not_raised :
    (onEnter [bigCity] (initialSession [bigCity]) "Tokyo").2 = Outcome.accepted bigCity ∧
    (∀ b ∈ populationBrackets, populationAtLeast b.threshold bigCity = true) ∧
    (updateDynamicStats [bigCity]).map (fun l => l.key) =
      populationBrackets.map (fun b => b.key) ∧
    (∀ b ∈ populationBrackets,
      bracketCounter (initialSession [bigCity]).dynamicStats b.key = 0) ∧
    (∀ b ∈ populationBrackets,
      bracketCounter (onEnter [bigCity] (initialSession [bigCity]) "Tokyo").1.dynamicStats
        b.key = 0) ∧
    bracketCounter (onEnter [bigCity] (initialSession [bigCity]) "Tokyo").1.dynamicStats
      "over5M" ≠
      bracketCounter (initialSession [bigCity]).dynamicStats "over5M" + 1 ∧
    (onEnter [bigCity] (initialSession [bigCity]) "Tokyo").1.guessedCities.length = 1 ∧
    (onEnter [bigCity] (initialSession [bigCity]) "Tokyo").1.totalPopulation = 6000000 := by
  decide

/-- C6, counterexample: the hyphenated spelling does not get the key of the spaced one. -/
theorem normalize_hyphen_is_not_space :
    normalize "sao-paulo" = "saopaulo" ∧ normalize "Sao Paulo" = "sao paulo" ∧
    normalize "sao-paulo" ≠ normalize "Sao Paulo" := by
  decide

/-- C6, amended: `normalize("SÃO PAULO")` and `normalize("Sao Paulo")` are the same string,
`sao paulo`, and `normalize("sao-paulo")` is `saopaulo`, the key of `saopaulo`: a hyphen is
deleted, not read as a space. Two spellings written in the characters U+0000..U+00FF and
the combining marks U+0300..U+036F that differ only in letter case or in diacritics (they
have the same letters once accents and case are set aside), and in which the letters
`saint` do not occur, produce one and the same key. -/
theorem normalize_case_diacritics (s s' : String)
    (hs : ∀ c ∈ s.data, inTabulatedRange c = true)
    (hs' : ∀ c ∈ s'.data, inTabulatedRange c = true)
    (hsame : lettersOf s = lettersOf s')
    (hsaint : ¬ saintWord <:+: lettersOf s) :
    normalize s = normalize s' ∧
    normalize "SÃO PAULO" = "sao paulo" ∧ normalize "Sao Paulo" = "sao paulo" ∧
    normalize "sao-paulo" = "saopaulo" ∧ normalize "sao-paulo" = normalize "saopaulo" := by
  refine ⟨?_, by decide, by decide, by decide, by decide⟩
  have e : foldKey s = foldKey s' := by
    rw [foldKey_eq_lettersOf s hs, foldKey_eq_lettersOf s' hs', hsame]
  have h1 : ¬ saintWord <:+: foldKey s := by
    rw [foldKey_eq_lettersOf s hs]; exact hsaint
  unfold normalize
  rw [normalizeChars_of_no_saint s h1, normalizeChars_of_no_saint s' (e ▸ h1), e]

/-- Witness of C6 amended: `MONTRÉAL` and `Montreal`. -/
theorem normalize_case_diacritics_witness :
    (∀ c ∈ "MONTRÉAL".data, inTabulatedRange c = true) ∧
    (∀ c ∈ "Montreal".data, inTabulatedRange c = true) ∧
    lettersOf "MONTRÉAL" = lettersOf "Montreal" ∧
    ¬ saintWord <:+: lettersOf "MONTRÉAL" ∧
    normalize "MONTRÉAL" = normalize "Montreal" :=
  ⟨by decide, by decide, by decide, by decide,
    (normalize_case_diacritics "MONTRÉAL" "Montreal" (by decide) (by decide) (by decide)
      (by decide)).1⟩

/-- C7, the code at the failing input: a capitalised `Saint` is not replaced, because the
pattern is matched, case-sensitively, before the string is lower-cased; the lower-case
spelling of a city the dataset calls `Saint Louis` then finds no city. -/
theorem normalize_capital_saint_kept :
    normalize "Saint Louis" = "saint louis" ∧ normalize "SAINT LOUIS" = "saint louis" ∧
    normalize "saint louis" = "st louis" ∧ normalize "St. Louis" = "st louis" ∧
    normalize "saintly" = "saintly" ∧
    findMatchingCity "Saint Louis" [saintLouis] = some saintLouis ∧
    findMatchingCity "saint louis" [saintLouis] = none ∧
    findMatchingCity "St. Louis" [saintLouis] = none := by
  decide

/-- C8, counterexample: on a dataset with an entry named `.`, whose key is empty, the guess
`-`, whose key is empty too, is matched to that entry and accepted. -/
theorem empty_key_matches_empty_name :
    normalize "-" = "" ∧ normalize "." = "" ∧
    findMatchingCity "-" [dotCity] = some dotCity ∧
    (onEnter [dotCity] (initialSession [dotCity]) "-").2 = Outcome.accepted dotCity ∧
    (onEnter [dotCity] (initialSession [dotCity]) "-").1.guessedCities ≠
      (initialSession [dotCity]).guessedCities ∧
    (onEnter [dotCity] (initialSession [dotCity]) "-").1.totalPopulation ≠
      (initialSession [dotCity]).totalPopulation := by
  decide

/-- C8, amended: a guess whose normalized key is empty matches no city of a dataset in
which no name and no alternate name normalizes to the empty string, and the Enter handler
then leaves the session unchanged; an empty or whitespace-only guess is dropped by the
handler before the matcher is called, whatever the dataset. The strings of the claim have
the empty key. -/
theorem empty_key_no_match (cities : List CityRecord) (guess : String)
    (hkey : normalize guess = "")
    (hdata : ∀ c ∈ cities, normalize c.name ≠ "" ∧
      ∀ n ∈ c.altNames.getD [], normalize n ≠ "") :
    findMatchingCity guess cities = none ∧
    (∀ s : Session, (onEnter cities s guess).1 = s) ∧
    (∀ (anyCities : List CityRecord) (s : Session) (blankGuess : String),
      trim blankGuess.data = [] →
        onEnter anyCities s blankGuess = (s, Outcome.blank)) ∧
    normalize "" = "" ∧ normalize "   " = "" ∧ normalize "-" = "" ∧
    normalize "..." = "" ∧ normalize (String.mk [Char.ofNat 0x27]) = "" ∧
    normalize (String.mk [Char.ofNat 0x301]) = "" := by
  have hnone : findMatchingCity guess cities = none := by
    unfold findMatchingCity
    simp only []
    have hfilter : cities.filter (isMatch (normalize guess)) = [] := by
      rw [List.filter_eq_nil_iff]
      intro c hc
      obtain ⟨hname, halt⟩ := hdata c hc
      rw [hkey]
      unfold isMatch
      simp only [Bool.or_eq_true, decide_eq_true_eq, List.any_eq_true, not_or, not_exists,
        not_and]
      exact ⟨hname, fun n hn => halt n hn⟩
    rw [hfilter]
    rfl
  refine ⟨hnone, ?_, fun anyCities s blankGuess hb => onEnter_blank anyCities s blankGuess hb,
    by decide, by decide, by decide, by decide, by decide, by decide⟩
  intro s
  by_cases hb : trim guess.data = []
  · rw [onEnter_blank cities s guess hb]
  · rw [onEnter_notFound cities s guess hb hnone]

/-- Witness of C8 amended: the guess `-` on a dataset holding Paris. -/
theorem empty_key_no_match_witness :
    normalize "-" = "" ∧
    (∀ c ∈ [paris], normalize c.name ≠ "" ∧ ∀ n ∈ c.altNames.getD [], normalize n ≠ "") ∧
    findMatchingCity "-" [paris] = none :=
  ⟨by decide, by decide, (empty_key_no_match [paris] "-" (by decide) (by decide)).1⟩

/-- C9, the code at the failing input: for a mode that the table lacks, and when the fetch
fails, `loadMapBounds` leaves an object with the properties `latMin`, `latMax`, `lngMin`,
`lngMax`. Its values are those of the world rectangle and the two cases agree, but it is
not the initial default: `minLat`, `maxLat`, `minLon` and `maxLon` are undefined in it. -/
theorem loadMapBounds_fallback_renames_fields :
    loadMapBounds "mars" (some sampleTable) = fallbackBounds ∧
    loadMapBounds "mars" none = fallbackBounds ∧
    loadMapBounds "mars" (some sampleTable) ≠ initialBounds ∧
    boundsField initialBounds "minLat" = some (-90) ∧
    boundsField (loadMapBounds "mars" (some sampleTable)) "minLat" = none ∧
    boundsField (loadMapBounds "mars" (some sampleTable)) "maxLat" = none ∧
    boundsField (loadMapBounds "mars" (some sampleTable)) "minLon" = none ∧
    boundsField (loadMapBounds "mars" (some sampleTable)) "maxLon" = none ∧
    boundsField (loadMapBounds "mars" none) "minLat" = none ∧
    boundsField (loadMapBounds "mars" (some sampleTable)) "latMin" = some (-90) ∧
    loadMapBounds "world" (some sampleTable) =
      [("minLat", -60), ("maxLat", 85), ("minLon", -180), ("maxLon", 180)] := by
  decide

/-- C10: for bounds with `minLon < maxLon` and `minLat < maxLat` and every surface size,
the projection sends `(maxLat, minLon)` to `(0, 0)` and `(minLat, maxLon)` to
`(width, height)`, and it is linear in between: the point a fraction `t` of the way from
`minLon` to `maxLon` and a fraction `u` of the way from `maxLat` to `minLat` lands on
`(t * width, u * height)`. -/
theorem latLonToSVGCoords_linear (bounds : Bounds) (width height : ℚ)
    (hlon : bounds.minLon < bounds.maxLon) (hlat : bounds.minLat < bounds.maxLat) :
    latLonToSVGCoords bounds bounds.maxLat bounds.minLon width height = some (0, 0) ∧
    latLonToSVGCoords bounds bounds.minLat bounds.maxLon width height =
      some (width, height) ∧
    (∀ t u : ℚ,
      latLonToSVGCoords bounds (bounds.maxLat + u * (bounds.minLat - bounds.maxLat))
        (bounds.minLon + t * (bounds.maxLon - bounds.minLon)) width height =
        some (t * width, u * height)) := by
  have h1 : bounds.maxLon - bounds.minLon ≠ 0 := sub_ne_zero.mpr (ne_of_gt hlon)
  have h2 : bounds.maxLat - bounds.minLat ≠ 0 := sub_ne_zero.mpr (ne_of_gt hlat)
  have hnd : ¬ (bounds.minLon = bounds.maxLon ∨ bounds.minLat = bounds.maxLat) := by
    rintro (h | h)
    · exact absurd h (ne_of_lt hlon)
    · exact absurd h (ne_of_lt hlat)
  have hlin : ∀ t u : ℚ,
      latLonToSVGCoords bounds (bounds.maxLat + u * (bounds.minLat - bounds.maxLat))
        (bounds.minLon + t * (bounds.maxLon - bounds.minLon)) width height =
        some (t * width, u * height) := by
    intro t u
    unfold latLonToSVGCoords
    rw [if_neg hnd]
    congr 2
    · field_simp
    · field_simp
      ring
  refine ⟨?_, ?_, hlin⟩
  · have := hlin 0 0
    simpa using this
  · have := hlin 1 1
    simpa using this

/-- Witness of C10: a map of western Europe drawn on a surface of 800 by 500. -/
theorem latLonToSVGCoords_linear_witness :
    sampleBounds.minLon < sampleBounds.maxLon ∧ sampleBounds.minLat < sampleBounds.maxLat ∧
    latLonToSVGCoords sampleBounds sampleBounds.maxLat sampleBounds.minLon 800 500 =
      some (0, 0) ∧
    latLonToSVGCoords sampleBounds sampleBounds.minLat sampleBounds.maxLon 800 500 =
      some (800, 500) :=
  ⟨by decide, by decide,
    (latLonToSVGCoords_linear sampleBounds 800 500 (by decide) (by decide)).1,
    (latLonToSVGCoords_linear sampleBounds 800 500 (by decide) (by decide)).2.1⟩

end CityQuiz
